import Mathlib

/-
Verification of the jon-at-skynet GitHub automation scripts.

Shallow embedding of the decision logic of the four scripts:
  scripts/1_generate_repo_report.py  (parallel CI/issue checker, progress counter)
  scripts/2_merge_safe_prs.py        (PR auto-merge policy, gh command runner)
  scripts/3_fetch_all_prs.py         (PR fetch, dedup, rate-limit gate, command runner)
  scripts/audit_github_repos.py      (compliance scoring, issue remediation, archived filter)

External I/O (subprocess, HTTP) is abstracted as explicit inputs: the outcome
of a subprocess call becomes a `CommandOutcome` value, the GitHub API answers
become function parameters, and thread interleavings become explicit event
sequences.  All numeric scoring uses exact rationals; Python floats on these
small fractions behave like exact arithmetic for the equalities proved here
(all values involved are sums of products of small binary/decimal fractions,
and the statements proved are the algebraic identities the spec pins down).
-/

/-! ### Command runner of scripts/3_fetch_all_prs.py (`run_command`, lines 15-26)

`run_command` runs a shell command with a timeout.  It catches
`subprocess.TimeoutExpired` and `subprocess.CalledProcessError` (non-zero
exit, because `check=True`), prints the error, and returns `None`; otherwise
it returns the raw stdout string.  It performs no JSON parsing at all. -/

structure CommandOutcome where
  timedOut : Bool
  exitCode : Nat
  stdout : String
  stderr : String
deriving DecidableEq, Repr

def run_command (o : CommandOutcome) : Option String :=
  if o.timedOut then none
  else if o.exitCode ≠ 0 then none
  else some o.stdout

/-! ### Command runner of scripts/2_merge_safe_prs.py (`run_gh_command`, lines 26-43)

`run_gh_command` runs a gh CLI command without any timeout (no `timeout=`
argument is passed to `subprocess.run`, so `TimeoutExpired` cannot occur,
hence no `timedOut` field here).  On non-zero exit it prints and returns
`None`; on empty (after strip) stdout it returns `None`; otherwise it parses
stdout as JSON, catching `json.JSONDecodeError` and returning `None` on
malformed JSON.  The JSON parser is abstracted as a `parse` function whose
`none` result models a `JSONDecodeError`. -/

structure GhCommandOutcome where
  exitCode : Nat
  stdout : String
  stderr : String
deriving DecidableEq, Repr

/-- Python's `str.strip()` (drop leading and trailing whitespace), written as
structural operations on the character list so that proofs can evaluate it. -/
def pyStrip (s : String) : String :=
  String.mk (((s.data.dropWhile Char.isWhitespace).reverse.dropWhile Char.isWhitespace).reverse)

def run_gh_command {J : Type} (parse : String → Option J) (o : GhCommandOutcome) : Option J :=
  if o.exitCode ≠ 0 then none
  else if pyStrip o.stdout = "" then none
  else parse o.stdout

/-! ### Rate-limit gate of scripts/3_fetch_all_prs.py
(`validate_rate_limits_before_execution`, lines 140-202)

Given the fetched rate-limit status (`none` models the "could not check"
path, which proceeds with caution) and the request estimates, the function
computes `core_needed = repo_list_requests + pr_list_requests` and
`search_needed = search_requests`; if either exceeds the corresponding
remaining quota it collects "issues" and falls into the interactive
confirmation prompt (blocked pending operator input), otherwise it returns
`True` without prompting. -/

structure RateLimitStatus where
  coreRemaining : Nat
  searchRemaining : Nat
deriving DecidableEq, Repr

structure RequestEstimates where
  searchRequests : Nat
  repoListRequests : Nat
  prListRequests : Nat
deriving DecidableEq, Repr

inductive GateOutcome where
  | proceedAutomatically
  | blockedPendingConfirmation
deriving DecidableEq, Repr

def core_needed (est : RequestEstimates) : Nat :=
  est.repoListRequests + est.prListRequests

def search_needed (est : RequestEstimates) : Nat :=
  est.searchRequests

def validate_rate_limits_before_execution
    (rateLimits : Option RateLimitStatus) (est : RequestEstimates) : GateOutcome :=
  match rateLimits with
  | none => .proceedAutomatically
  | some rl =>
    if core_needed est > rl.coreRemaining ∨ search_needed est > rl.searchRemaining then
      .blockedPendingConfirmation
    else
      .proceedAutomatically

/-! ### PR record deduplication of scripts/3_fetch_all_prs.py (`main`, lines 549-556)

The two fetch paths produce lists `prs1` (search API) and `prs2` (per-repo
listing).  `main` runs

    pr_map = dict()
    for pr in prs1 + prs2:
        key = nameWithOwner + "#" + str(number)
        if key not in pr_map:
            pr_map[key] = pr
    owner_prs = list(pr_map.values())

Python dicts preserve insertion order, so `owner_prs` lists, for each key in
first-occurrence order, the first record seen with that key.  The string key
`nameWithOwner#number` encodes the pair (nameWithOwner, number) injectively
(the decimal digits of `number` contain no `#`, so the encoded pair is
recovered by splitting at the last `#`); we model the key as that pair. -/

structure PRRecord where
  repoNameWithOwner : String
  number : Nat
  title : String
  url : String
  author : String
  draft : Bool
deriving DecidableEq, Repr

def prKey (pr : PRRecord) : String × Nat :=
  (pr.repoNameWithOwner, pr.number)

def insertIfAbsent (m : List PRRecord) (pr : PRRecord) : List PRRecord :=
  if m.any (fun q => prKey q = prKey pr) then m else m ++ [pr]

def dedupPRs (prs : List PRRecord) : List PRRecord :=
  prs.foldl insertIfAbsent []

/-! ### Merge policy of scripts/2_merge_safe_prs.py (`check_and_merge_pr`, lines 93-175)

The function fetches `mergeable`, `mergeStateStatus` and `statusCheckRollup`
for a PR and then takes exactly one action.  We embed the decision as a pure
function of those fetched fields and the PR author.  A status check counts
as failed when its `conclusion` is FAILURE, CANCELLED or TIMED_OUT; it
counts as pending when it is not failed and its `status` is IN_PROGRESS,
QUEUED or PENDING (the loop's if/elif ordering). -/

/-- Python's `str.lower()` for the ASCII strings compared by these scripts,
written as a structural map over the character list so that proofs can
evaluate it on concrete strings. -/
def lowerAscii (s : String) : String :=
  String.mk (s.data.map Char.toLower)

def is_dependabot_pr (login : String) : Bool :=
  ["dependabot[bot]", "dependabot"].contains (lowerAscii login)

structure StatusCheck where
  conclusion : Option String
  status : Option String
  checkName : String
deriving DecidableEq, Repr

def isFailedCheck (c : StatusCheck) : Bool :=
  match c.conclusion with
  | some s => ["FAILURE", "CANCELLED", "TIMED_OUT"].contains s
  | none => false

def isPendingStatus (c : StatusCheck) : Bool :=
  match c.status with
  | some s => ["IN_PROGRESS", "QUEUED", "PENDING"].contains s
  | none => false

def failed_checks (checks : List StatusCheck) : List StatusCheck :=
  checks.filter isFailedCheck

def pending_checks (checks : List StatusCheck) : List StatusCheck :=
  checks.filter (fun c => !isFailedCheck c && isPendingStatus c)

inductive MergeDecision where
  | notMergeable (dependabotRecreateComment : Bool)
  | skipFailed
  | skipPending
  | attemptSquashMergeDeleteBranch
deriving DecidableEq, Repr

def check_and_merge_pr (authorLogin : String) (mergeable mergeStateStatus : String)
    (checks : List StatusCheck) : MergeDecision :=
  if mergeable ≠ "MERGEABLE" then
    .notMergeable (is_dependabot_pr authorLogin && mergeStateStatus = "DIRTY")
  else if failed_checks checks ≠ [] then
    .skipFailed
  else if pending_checks checks ≠ [] then
    .skipPending
  else
    .attemptSquashMergeDeleteBranch

/-! ### Compliance scoring of scripts/audit_github_repos.py (`audit_repository`, lines 394-552)

`STANDARD_FILES` and `STANDARD_LABELS` are the class-level tables.  The
existence of each standard file type is abstracted as a predicate on the
file-type name (the path probing is I/O); the repository's labels are given
as the list of existing label names.  Scores are Python floats computed as
fractions times 100; we compute them exactly in ℚ. -/

structure FileSpec where
  fileName : String
  required : Bool
deriving DecidableEq, Repr

def STANDARD_FILES : List FileSpec :=
  [⟨"CODEOWNERS", true⟩, ⟨"README", true⟩, ⟨"LICENSE", true⟩,
   ⟨"CONTRIBUTING", false⟩, ⟨"CODE_OF_CONDUCT", false⟩,
   ⟨"SECURITY", false⟩, ⟨"CHANGELOG", false⟩]

def STANDARD_LABELS : List String :=
  ["frontend", "backend", "bug", "feature", "documentation", "enhancement",
   "good first issue", "help wanted", "wontfix", "duplicate", "invalid",
   "question", "security", "performance", "testing", "triage", "planned",
   "in-review"]

def required_files_total : Nat :=
  (STANDARD_FILES.filter (fun f => f.required)).length

def required_files_found (fileExists : String → Bool) : Nat :=
  (STANDARD_FILES.filter (fun f => f.required && fileExists f.fileName)).length

def files_found (fileExists : String → Bool) : Nat :=
  (STANDARD_FILES.filter (fun f => fileExists f.fileName)).length

def files_score (fileExists : String → Bool) : ℚ :=
  if required_files_total > 0 then
    (((required_files_found fileExists : ℚ) / (required_files_total : ℚ)) * 0.8
      + ((files_found fileExists : ℚ) / (STANDARD_FILES.length : ℚ)) * 0.2) * 100
  else 100

def labelMatches (existingLabels : List String) (labelName : String) : Bool :=
  existingLabels.any (fun e => lowerAscii e = lowerAscii labelName)

def labels_found (existingLabels : List String) : Nat :=
  (STANDARD_LABELS.filter (fun l => labelMatches existingLabels l)).length

def labels_score (existingLabels : List String) : ℚ :=
  if STANDARD_LABELS.length > 0 then
    ((labels_found existingLabels : ℚ) / (STANDARD_LABELS.length : ℚ)) * 100
  else 100

def overall_score (fileExists : String → Bool) (existingLabels : List String) : ℚ :=
  files_score fileExists * 0.6 + labels_score existingLabels * 0.4

/-! ### Issue remediation of scripts/audit_github_repos.py
(`search_issues` lines 262-278, `create_or_update_issue` lines 313-327)

`search_issues` walks the search-API items in order and returns the first
one whose title matches the requested title exactly, `None` if there is no
exact match.  `create_or_update_issue` then: open match → nothing to create;
closed match → reopen that same issue; no match → create a new issue.
GitHub issue state is `open` or `closed`. -/

inductive IssueState where
  | isOpen
  | isClosed
deriving DecidableEq, Repr

structure GhIssue where
  number : Nat
  title : String
  state : IssueState
deriving DecidableEq, Repr

def search_issues (title : String) (items : List GhIssue) : Option GhIssue :=
  items.find? (fun i => i.title = title)

inductive IssueAction where
  | alreadyOpen (number : Nat)
  | reopen (number : Nat)
  | createNew
deriving DecidableEq, Repr

def create_or_update_issue (title : String) (items : List GhIssue) : IssueAction :=
  match search_issues title items with
  | some i =>
    match i.state with
    | .isOpen => .alreadyOpen i.number
    | .isClosed => .reopen i.number
  | none => .createNew

/-! ### Archived-repository filtering of scripts/audit_github_repos.py
(`audit_organization` lines 574-578, `main` lines 740-799)

The per-repo loop of `audit_organization` starts with

    if repo_data["archived"]:
        org_audit["summary"]["repo_types"]["archived"] += 1
        continue

with no condition on any flag.  `main` defines an `--include-archived`
argument but `args.include_archived` is never read afterwards, and
`audit_organization` is called as
`auditor.audit_organization(org, args.fix_labels, args.create_issues)`. -/

structure RepoData where
  fullName : String
  archived : Bool
  isPrivate : Bool
  isFork : Bool
deriving DecidableEq, Repr

def audit_organization_repos (repos : List RepoData) : List RepoData :=
  repos.filter (fun r => !r.archived)

def archived_repo_count (repos : List RepoData) : Nat :=
  (repos.filter (fun r => r.archived)).length

def main_audited_repos (includeArchived : Bool) (repos : List RepoData) : List RepoData :=
  audit_organization_repos repos

/-! ### Parallel CI/issues checker of scripts/1_generate_repo_report.py
(`check_repo_ci_and_issues_with_progress` lines 120-153,
`check_repos_ci_and_issues_parallel` lines 156-202)

Each worker's fetch is abstracted as a function from the repo name to an
`Except` value (`error` models a raised exception).  The worker wrapper
catches any exception and returns the documented defaults.  The dispatcher
collects the futures' results as they complete — modelled by an arbitrary
completion order — and writes each result into the results mapping keyed by
the repo name; the mapping is modelled as the association list of completed
(name, info) pairs queried with `List.lookup`. -/

structure CIInfo where
  has_ci : Bool
  ci_status : String
  latest_run_status : String
  latest_run_url : String
  workflow_count : Nat
deriving DecidableEq, Repr

structure IssuesInfo where
  count : Nat
  issues : List String
deriving DecidableEq, Repr

def errorCIInfo : CIInfo :=
  { has_ci := false
    ci_status := "Error checking CI"
    latest_run_status := "error"
    latest_run_url := ""
    workflow_count := 0 }

def emptyIssuesInfo : IssuesInfo :=
  { count := 0, issues := [] }

def check_repo_ci_and_issues_with_progress
    (fetch : String → Except String (CIInfo × IssuesInfo)) (repoName : String) :
    String × CIInfo × IssuesInfo :=
  match fetch repoName with
  | .ok r => (repoName, r)
  | .error _ => (repoName, errorCIInfo, emptyIssuesInfo)

def check_repos_ci_and_issues_parallel
    (fetch : String → Except String (CIInfo × IssuesInfo))
    (completionOrder : List String) : List (String × CIInfo × IssuesInfo) :=
  completionOrder.map (check_repo_ci_and_issues_with_progress fetch)

/-! ### Progress counter of scripts/1_generate_repo_report.py (`ProgressCounter`, lines 20-29)

    class ProgressCounter:
        def increment(self) -> int:
            with self.lock:
                self.current += 1
                return self.current

An increment is a read-modify-write of `current` performed while holding the
mutex.  We model executions at the granularity the mutex enforces: an event
either acquires the lock and reads `current`, or writes the read value plus
one and releases.  A thread can acquire only when no thread holds the lock,
and only the holder can write, so no second read can slip between a read and
its write — this is exactly the guarantee `with self.lock` provides.  An
execution is any event sequence each of whose events is legal from the state
reached so far; `counterStep` returns `none` on an illegal event, so legal
executions are those on which `runCounterEvents` succeeds. -/

structure CounterState (n : Nat) where
  counter : Nat
  holder : Option (Fin n)
  readVal : Nat
  completedIncrements : Nat
deriving DecidableEq, Repr

inductive LockEvent (n : Nat) where
  | acquireAndRead (t : Fin n)
  | writeAndRelease (t : Fin n)
deriving DecidableEq, Repr

def counterInit (n : Nat) : CounterState n :=
  { counter := 0, holder := none, readVal := 0, completedIncrements := 0 }

def counterStep {n : Nat} (s : CounterState n) (e : LockEvent n) : Option (CounterState n) :=
  match e with
  | .acquireAndRead t =>
    match s.holder with
    | none => some { counter := s.counter, holder := some t, readVal := s.counter,
                     completedIncrements := s.completedIncrements }
    | some _ => none
  | .writeAndRelease t =>
    match s.holder with
    | some t2 =>
      if t2 = t then
        some { counter := s.readVal + 1, holder := none, readVal := 0,
               completedIncrements := s.completedIncrements + 1 }
      else none
    | none => none

def runCounterEvents {n : Nat} (s : CounterState n) : List (LockEvent n) → Option (CounterState n)
  | [] => some s
  | e :: rest =>
    match counterStep s e with
    | some s2 => runCounterEvents s2 rest
    | none => none

def incrementCount {n : Nat} (es : List (LockEvent n)) : Nat :=
  (es.filter (fun e => match e with | .writeAndRelease _ => true | _ => false)).length

/-! ### Concrete sample data used to instantiate the theorems below -/

def searchPRExample : PRRecord :=
  { repoNameWithOwner := "jon-the-dev/demo", number := 7,
    title := "Bump dep (search result)", url := "https://example.invalid/a",
    author := "dependabot[bot]", draft := false }

def repoListPRExample : PRRecord :=
  { repoNameWithOwner := "jon-the-dev/demo", number := 7,
    title := "Bump dep (repo list result)", url := "https://example.invalid/b",
    author := "dependabot[bot]", draft := false }

def otherPRExample : PRRecord :=
  { repoNameWithOwner := "jon-the-dev/other", number := 3,
    title := "Fix bug", url := "https://example.invalid/c",
    author := "alice", draft := false }

def sampleCIInfo : CIInfo :=
  { has_ci := true, ci_status := "Passing", latest_run_status := "success",
    latest_run_url := "https://example.invalid/run", workflow_count := 2 }

def sampleIssuesInfo : IssuesInfo :=
  { count := 1, issues := ["flaky test"] }

def sampleFetch : String → Except String (CIInfo × IssuesInfo) :=
  fun r => if r = "jon-the-dev/demo" then .error "boom" else .ok (sampleCIInfo, sampleIssuesInfo)

def passedCheckExample : StatusCheck :=
  { conclusion := some "SUCCESS", status := some "COMPLETED", checkName := "build" }

def nineLabelsExample : List String :=
  ["frontend", "backend", "bug", "feature", "documentation", "enhancement",
   "good first issue", "help wanted", "wontfix"]

def toyJsonParse : String → Option Nat :=
  fun s => if s = "7" then some 7 else none

def closedComplianceIssueExample : GhIssue :=
  { number := 12, title := "Repository Compliance: Missing Required Files",
    state := .isClosed }

def unrelatedIssueExample : GhIssue :=
  { number := 13, title := "Some other issue", state := .isOpen }

def archivedRepoExample : RepoData :=
  { fullName := "jon-the-dev/old-project", archived := true,
    isPrivate := false, isFork := false }

def activeRepoExample : RepoData :=
  { fullName := "jon-the-dev/demo", archived := false,
    isPrivate := true, isFork := false }

def interleavingExample : List (LockEvent 2) :=
  [.acquireAndRead 0, .writeAndRelease 0, .acquireAndRead 1, .writeAndRelease 1,
   .acquireAndRead 0, .writeAndRelease 0]

def finalStateExample : CounterState 2 :=
  { counter := 3, holder := none, readVal := 0, completedIncrements := 3 }

/-! ## Theorems -/

/-! ### Deduplication lemmas (claims C1 and C4) -/

theorem mem_insertIfAbsent {m : List PRRecord} {pr q : PRRecord}
    (h : q ∈ insertIfAbsent m pr) : q ∈ m ∨ q = pr := by
  unfold insertIfAbsent at h
  split at h
  · exact Or.inl h
  · rcases List.mem_append.mp h with h1 | h1
    · exact Or.inl h1
    · exact Or.inr (List.mem_singleton.mp h1)

theorem mem_foldl_insertIfAbsent :
    ∀ (prs m : List PRRecord) (q : PRRecord),
      q ∈ prs.foldl insertIfAbsent m → q ∈ m ∨ q ∈ prs
  | [], _, _, h => Or.inl h
  | pr :: rest, m, q, h => by
    rw [List.foldl_cons] at h
    rcases mem_foldl_insertIfAbsent rest (insertIfAbsent m pr) q h with h1 | h1
    · rcases mem_insertIfAbsent h1 with h2 | h2
      · exact Or.inl h2
      · exact Or.inr (by simp [h2])
    · exact Or.inr (List.mem_cons_of_mem _ h1)

theorem countKey_foldl_insertIfAbsent :
    ∀ (prs m : List PRRecord) (k : String × Nat),
      (prs.foldl insertIfAbsent m).countP (fun q => prKey q = k)
        = m.countP (fun q => prKey q = k)
          + (if m.any (fun q => prKey q = k) = false ∧ prs.any (fun q => prKey q = k) = true
             then 1 else 0)
  | [], m, k => by simp
  | pr :: rest, m, k => by
    rw [List.foldl_cons, countKey_foldl_insertIfAbsent rest (insertIfAbsent m pr) k]
    by_cases hpk : prKey pr = k
    · subst hpk
      by_cases hm : m.any (fun q => prKey q = prKey pr) = true
      · have hins : insertIfAbsent m pr = m := by simp [insertIfAbsent, hm]
        rw [hins]
        simp [hm]
      · have hins : insertIfAbsent m pr = m ++ [pr] := by
          simp [insertIfAbsent]
          simp at hm
          exact hm
        rw [hins]
        have hany : (m ++ [pr]).any (fun q => prKey q = prKey pr) = true := by
          simp
        rw [List.countP_append]
        simp [hany, hm]
    · have hcount : (insertIfAbsent m pr).countP (fun q => prKey q = k)
          = m.countP (fun q => prKey q = k) := by
        unfold insertIfAbsent
        split
        · rfl
        · rw [List.countP_append]
          simp [hpk]
      have hany2 : (insertIfAbsent m pr).any (fun q => prKey q = k)
          = m.any (fun q => prKey q = k) := by
        unfold insertIfAbsent
        split
        · rfl
        · simp [hpk]
      rw [hcount, hany2]
      simp [hpk]

theorem findKey_foldl_insertIfAbsent :
    ∀ (prs m : List PRRecord) (k : String × Nat),
      (prs.foldl insertIfAbsent m).find? (fun q => prKey q = k)
        = (m.find? (fun q => prKey q = k)).or (prs.find? (fun q => prKey q = k))
  | [], m, k => by
    cases h : m.find? (fun q => prKey q = k) <;> simp [h]
  | pr :: rest, m, k => by
    rw [List.foldl_cons, findKey_foldl_insertIfAbsent rest (insertIfAbsent m pr) k]
    by_cases hpk : prKey pr = k
    · subst hpk
      by_cases hm : m.any (fun q => prKey q = prKey pr) = true
      · have hins : insertIfAbsent m pr = m := by simp [insertIfAbsent, hm]
        rw [hins]
        rcases List.any_eq_true.mp hm with ⟨x, hx, hpx⟩
        have hsome : (m.find? (fun q => decide (prKey q = prKey pr))).isSome = true :=
          List.find?_isSome.mpr ⟨x, hx, hpx⟩
        rcases Option.isSome_iff_exists.mp hsome with ⟨y, hy⟩
        rw [hy]
        rfl
      · have hins : insertIfAbsent m pr = m ++ [pr] := by
          simp [insertIfAbsent]
          simp at hm
          exact hm
        have hnone : m.find? (fun q => decide (prKey q = prKey pr)) = none := by
          rw [List.find?_eq_none]
          intro x hx
          simp at hm ⊢
          exact hm x hx
        rw [hins, List.find?_append, hnone]
        simp [List.find?_cons]
    · have hfind : (insertIfAbsent m pr).find? (fun q => prKey q = k)
          = m.find? (fun q => prKey q = k) := by
        unfold insertIfAbsent
        split
        · rfl
        · rw [List.find?_append]
          have hnil : [pr].find? (fun q => decide (prKey q = k)) = none := by simp [hpk]
          rw [hnil]
          cases m.find? (fun q => decide (prKey q = k)) <;> rfl
      have h2 : (pr :: rest).find? (fun q => prKey q = k)
          = rest.find? (fun q => prKey q = k) := by
        simp [List.find?_cons, hpk]
      rw [hfind, h2]

/-- Claim C1: after combining the search-API results `prs1` and the per-repo-listing
results `prs2` for one owner and deduplicating by the (repository nameWithOwner,
PR number) composite key, the resulting collection contains exactly one record for
every key present in the inputs, and every record it contains is one of the input
records unchanged (not a hybrid of fields from two records). -/
theorem dedup_unique_per_key_and_unchanged (prs1 prs2 : List PRRecord) (k : String × Nat)
    (hk : ∃ pr ∈ prs1 ++ prs2, prKey pr = k) :
    (dedupPRs (prs1 ++ prs2)).countP (fun q => prKey q = k) = 1
      ∧ ∀ q ∈ dedupPRs (prs1 ++ prs2), q ∈ prs1 ++ prs2 := by
  constructor
  · have h := countKey_foldl_insertIfAbsent (prs1 ++ prs2) [] k
    unfold dedupPRs
    rw [h]
    have hany : (prs1 ++ prs2).any (fun q => prKey q = k) = true := by
      rcases hk with ⟨pr, hpr, hkey⟩
      exact List.any_eq_true.mpr ⟨pr, hpr, by simp [hkey]⟩
    simp [hany]
  · intro q hq
    rcases mem_foldl_insertIfAbsent (prs1 ++ prs2) [] q hq with h | h
    · cases h
    · exact h

/-- Claim C1 witness: instantiation on a concrete input where both fetch paths
produced a record for the key (jon-the-dev/demo, 7). -/
theorem dedup_unique_per_key_and_unchanged_witness :
    (∃ pr ∈ [searchPRExample, otherPRExample] ++ [repoListPRExample],
        prKey pr = ("jon-the-dev/demo", 7))
    ∧ ((dedupPRs ([searchPRExample, otherPRExample] ++ [repoListPRExample])).countP
          (fun q => prKey q = ("jon-the-dev/demo", 7)) = 1
       ∧ ∀ q ∈ dedupPRs ([searchPRExample, otherPRExample] ++ [repoListPRExample]),
           q ∈ [searchPRExample, otherPRExample] ++ [repoListPRExample]) :=
  ⟨by decide,
   dedup_unique_per_key_and_unchanged [searchPRExample, otherPRExample]
     [repoListPRExample] ("jon-the-dev/demo", 7) (by decide)⟩

/-- Claim C4 counterexample: the deduplication is not last-writer-wins.  Here the
search-API path (processed first) and the per-repo-listing path (processed later)
produce distinct records for the same key (jon-the-dev/demo, 7); the record kept
is the search-API record `searchPRExample`, not the later per-repo-listing record
`repoListPRExample` that the claim says is kept. -/
theorem dedup_keeps_earlier_record_counterexample :
    dedupPRs ([searchPRExample] ++ [repoListPRExample]) = [searchPRExample]
      ∧ searchPRExample ≠ repoListPRExample
      ∧ prKey searchPRExample = prKey repoListPRExample := by
  refine ⟨by decide, by decide, by decide⟩

/-- Claim C4 (amended): deduplication is first-writer-wins: for every key, the
record kept in the deduplicated combined collection is the record processed
earliest in the combined sequence — so when both fetch paths produce a record for
the same key, the search-API record (method 1) is kept, and the per-repo-listing
record is consulted only for keys the search API did not produce. -/
theorem dedup_first_writer_wins (prs1 prs2 : List PRRecord) (k : String × Nat) :
    (dedupPRs (prs1 ++ prs2)).find? (fun q => prKey q = k)
      = (prs1.find? (fun q => prKey q = k)).or (prs2.find? (fun q => prKey q = k)) := by
  have h := findKey_foldl_insertIfAbsent (prs1 ++ prs2) [] k
  unfold dedupPRs
  rw [h, List.find?_append]
  rfl

/-! ### Merge policy (claim C2) -/

/-- Claim C2: for every open PR processed by check_and_merge_pr, exactly one
documented action is taken: not mergeable → recorded as not mergeable with no merge
attempt, and a Dependabot-authored PR in DIRTY merge state additionally gets the
dependabot-recreate comment; mergeable with at least one failed check → skipped,
recorded as failed; mergeable with at least one pending/queued check (and none
failed) → skipped, recorded as pending; mergeable with all checks passed → a
squash-merge with branch deletion is attempted.  The decision type makes the action
unique by construction. -/
theorem merge_decision_table (authorLogin mergeable mergeStateStatus : String)
    (checks : List StatusCheck) :
    (mergeable ≠ "MERGEABLE" →
        check_and_merge_pr authorLogin mergeable mergeStateStatus checks
          = .notMergeable (is_dependabot_pr authorLogin && mergeStateStatus = "DIRTY"))
      ∧ (mergeable = "MERGEABLE" → (∃ c ∈ checks, isFailedCheck c = true) →
          check_and_merge_pr authorLogin mergeable mergeStateStatus checks = .skipFailed)
      ∧ (mergeable = "MERGEABLE" → (∀ c ∈ checks, isFailedCheck c = false) →
          (∃ c ∈ checks, isPendingStatus c = true) →
          check_and_merge_pr authorLogin mergeable mergeStateStatus checks = .skipPending)
      ∧ (mergeable = "MERGEABLE" → (∀ c ∈ checks, isFailedCheck c = false) →
          (∀ c ∈ checks, isPendingStatus c = false) →
          check_and_merge_pr authorLogin mergeable mergeStateStatus checks
            = .attemptSquashMergeDeleteBranch) := by
  refine ⟨?_, ?_, ?_, ?_⟩
  · intro hm
    unfold check_and_merge_pr
    rw [if_pos hm]
  · rintro hm ⟨c, hc, hfc⟩
    have hne : failed_checks checks ≠ [] :=
      List.ne_nil_of_mem (List.mem_filter.mpr ⟨hc, hfc⟩)
    unfold check_and_merge_pr
    rw [if_neg (by simp [hm]), if_pos hne]
  · rintro hm hnf ⟨c, hc, hpc⟩
    have hfe : failed_checks checks = [] := by
      unfold failed_checks
      rw [List.filter_eq_nil_iff]
      intro a ha
      simp [hnf a ha]
    have hne : pending_checks checks ≠ [] := by
      refine List.ne_nil_of_mem (List.mem_filter.mpr ⟨hc, ?_⟩)
      simp [hnf c hc, hpc]
    unfold check_and_merge_pr
    rw [if_neg (by simp [hm]), if_neg (by simp [hfe]), if_pos hne]
  · intro hm hnf hnp
    have hfe : failed_checks checks = [] := by
      unfold failed_checks
      rw [List.filter_eq_nil_iff]
      intro a ha
      simp [hnf a ha]
    have hpe : pending_checks checks = [] := by
      unfold pending_checks
      rw [List.filter_eq_nil_iff]
      intro a ha
      simp [hnp a ha]
    unfold check_and_merge_pr
    rw [if_neg (by simp [hm]), if_neg (by simp [hfe]), if_neg (by simp [hpe])]

/-- Claim C2 witness: a mergeable PR whose single check passed is squash-merged, and
a Dependabot PR that is not mergeable and in DIRTY merge state is recorded as not
mergeable with the recreate comment. -/
theorem merge_decision_table_witness :
    check_and_merge_pr "alice" "MERGEABLE" "CLEAN" [passedCheckExample]
        = .attemptSquashMergeDeleteBranch
      ∧ check_and_merge_pr "dependabot[bot]" "CONFLICTING" "DIRTY" []
        = .notMergeable true := by
  constructor
  · exact (merge_decision_table "alice" "MERGEABLE" "CLEAN" [passedCheckExample]).2.2.2
      rfl (by decide) (by decide)
  · rw [(merge_decision_table "dependabot[bot]" "CONFLICTING" "DIRTY" []).1 (by decide)]
    decide

/-! ### Compliance scoring (claim C3) -/

theorem standard_files_counts :
    required_files_total = 3 ∧ STANDARD_FILES.length = 7 ∧ STANDARD_LABELS.length = 18 :=
  ⟨rfl, rfl, rfl⟩

/-- Claim C3 counterexample: the scores computed by audit_repository are percentages
(the weighted fractions scaled by 100), not the raw fractions the claim's formulas
state.  With exactly 9 of the 18 standard labels present, labels_score is 50 — as
the claim's own "evaluates to exactly 50.0" parenthetical says — which differs from
the claim's formula found/total = 9/18; likewise with all 7 files present
files_score is 100, not (3/3)*0.8 + (7/7)*0.2 = 1. -/
theorem compliance_score_scale_counterexample :
    labels_found nineLabelsExample = 9
      ∧ labels_score nineLabelsExample = 50
      ∧ ¬ ((50 : ℚ) = (9 : ℚ) / 18)
      ∧ files_score (fun _ => true) = 100
      ∧ ¬ ((100 : ℚ) = (3 : ℚ) / 3 * 0.8 + (7 : ℚ) / 7 * 0.2) := by
  have h9 : labels_found nineLabelsExample = 9 := by decide
  have hlen : STANDARD_LABELS.length = 18 := rfl
  have hflen : STANDARD_FILES.length = 7 := rfl
  have hrt : required_files_total = 3 := rfl
  refine ⟨h9, ?_, by norm_num, ?_, by norm_num⟩
  · unfold labels_score
    rw [h9, hlen]
    norm_num
  · have hrf : required_files_found (fun _ => true) = 3 := by decide
    have haf : files_found (fun _ => true) = 7 := by decide
    unfold files_score
    rw [hrf, haf, hrt, hflen]
    norm_num

/-- Claim C3 (amended): for every repository audited by audit_repository, with the
scores expressed as percentages (the weighted fractions scaled by 100, as the
claim's own "evaluating to exactly 50.0" instance fixes the scale): files_score
equals ((required_found/required_total)*0.8 + (all_found/all_total)*0.2)*100 over
the 7 standard files of which 3 are required; labels_score equals
(found/total)*100 over the 18 standard labels matched case-insensitively,
evaluating to exactly 50 when 9 of the 18 labels are present; and overall_score
equals files_score*0.6 + labels_score*0.4. -/
theorem compliance_scores_formulas :
    (∀ fileExists : String → Bool,
        files_score fileExists
          = ((required_files_found fileExists : ℚ) / 3 * 0.8
              + (files_found fileExists : ℚ) / 7 * 0.2) * 100)
      ∧ (∀ existingLabels : List String,
          labels_score existingLabels = (labels_found existingLabels : ℚ) / 18 * 100)
      ∧ (∀ existingLabels : List String, labels_found existingLabels = 9 →
          labels_score existingLabels = 50)
      ∧ (∀ (fileExists : String → Bool) (existingLabels : List String),
          overall_score fileExists existingLabels
            = files_score fileExists * 0.6 + labels_score existingLabels * 0.4) := by
  have hlen : STANDARD_LABELS.length = 18 := rfl
  have hflen : STANDARD_FILES.length = 7 := rfl
  have hrt : required_files_total = 3 := rfl
  have hformula : ∀ existingLabels : List String,
      labels_score existingLabels = (labels_found existingLabels : ℚ) / 18 * 100 := by
    intro existingLabels
    unfold labels_score
    rw [hlen]
    norm_num
  refine ⟨?_, hformula, ?_, fun _ _ => rfl⟩
  · intro fileExists
    unfold files_score
    rw [hrt, hflen]
    norm_num
  · intro existingLabels h9
    rw [hformula existingLabels, h9]
    norm_num

/-- Claim C3 witness: the amended formulas applied at a concrete repository that has
exactly the 3 required files and exactly 9 of the 18 standard labels. -/
theorem compliance_scores_formulas_witness :
    files_score (fun f => ["CODEOWNERS", "README", "LICENSE"].contains f)
        = ((3 : ℚ) / 3 * 0.8 + (3 : ℚ) / 7 * 0.2) * 100
      ∧ labels_found nineLabelsExample = 9
      ∧ labels_score nineLabelsExample = 50 := by
  refine ⟨?_, by decide, (compliance_scores_formulas).2.2.1 nineLabelsExample (by decide)⟩
  have h := (compliance_scores_formulas).1 (fun f => ["CODEOWNERS", "README", "LICENSE"].contains f)
  have hrf : required_files_found (fun f => ["CODEOWNERS", "README", "LICENSE"].contains f) = 3 := by
    decide
  have haf : files_found (fun f => ["CODEOWNERS", "README", "LICENSE"].contains f) = 3 := by
    decide
  rw [h, hrf, haf]
  norm_num

/-! ### Rate-limit gate (claim C5) -/

/-- Claim C5: with the rate-limit status successfully fetched,
validate_rate_limits_before_execution blocks pending explicit operator confirmation
exactly when the estimated core-API request count exceeds the remaining core quota
or the estimated search-API request count exceeds the remaining search quota, and
proceeds automatically without prompting otherwise; in particular remaining=50 with
estimated need=200 blocks, and remaining=5000 with estimated need=200 proceeds. -/
theorem rate_limit_gate (rl : RateLimitStatus) (est : RequestEstimates) :
    (validate_rate_limits_before_execution (some rl) est = .blockedPendingConfirmation
        ↔ core_needed est > rl.coreRemaining ∨ search_needed est > rl.searchRemaining)
      ∧ validate_rate_limits_before_execution
          (some { coreRemaining := 50, searchRemaining := 30 })
          { searchRequests := 2, repoListRequests := 0, prListRequests := 200 }
          = .blockedPendingConfirmation
      ∧ validate_rate_limits_before_execution
          (some { coreRemaining := 5000, searchRemaining := 30 })
          { searchRequests := 2, repoListRequests := 0, prListRequests := 200 }
          = .proceedAutomatically := by
  refine ⟨?_, by decide, by decide⟩
  unfold validate_rate_limits_before_execution
  by_cases h : core_needed est > rl.coreRemaining ∨ search_needed est > rl.searchRemaining
  · simp [h]
  · simp [h]

/-! ### Parallel batch failure isolation (claim C6) -/

theorem check_repo_with_progress_fst
    (fetch : String → Except String (CIInfo × IssuesInfo)) (repoName : String) :
    check_repo_ci_and_issues_with_progress fetch repoName
      = (repoName, (check_repo_ci_and_issues_with_progress fetch repoName).2) := by
  unfold check_repo_ci_and_issues_with_progress
  cases fetch repoName <;> rfl

theorem lookup_parallel (fetch : String → Except String (CIInfo × IssuesInfo)) :
    ∀ (order : List String) (r : String), r ∈ order →
      (check_repos_ci_and_issues_parallel fetch order).lookup r
        = some (check_repo_ci_and_issues_with_progress fetch r).2
  | [], r, h => absurd h (List.not_mem_nil r)
  | x :: rest, r, h => by
    unfold check_repos_ci_and_issues_parallel
    rw [List.map_cons, check_repo_with_progress_fst fetch x]
    by_cases hx : r = x
    · subst hx
      simp [List.lookup]
    · have hr : r ∈ rest := by
        rcases List.mem_cons.mp h with h1 | h1
        · exact absurd h1 hx
        · exact h1
      have hbeq : (r == x) = false := by simpa using hx
      have ih := lookup_parallel fetch rest r hr
      unfold check_repos_ci_and_issues_parallel at ih
      simp only [List.lookup, hbeq]
      exact ih

/-- Claim C6: for every batch of repositories processed by the parallel CI/issues
checker, in any completion order, if the per-repository check of one item raises an
exception, the batch is not aborted: that item's entry in the results mapping holds
the default values ("Error checking CI" ci_info and an empty issues_info), and
every other item's entry is still present and populated with its actual fetched
result. -/
theorem parallel_batch_failure_isolation
    (fetch : String → Except String (CIInfo × IssuesInfo))
    (repos completionOrder : List String) (r0 msg : String)
    (hperm : completionOrder.Perm repos) (hr0 : r0 ∈ repos)
    (herr : fetch r0 = .error msg) :
    (check_repos_ci_and_issues_parallel fetch completionOrder).lookup r0
        = some (errorCIInfo, emptyIssuesInfo)
      ∧ ∀ r ∈ repos, ∀ info, fetch r = .ok info →
          (check_repos_ci_and_issues_parallel fetch completionOrder).lookup r = some info := by
  constructor
  · rw [lookup_parallel fetch completionOrder r0 (hperm.mem_iff.mpr hr0)]
    unfold check_repo_ci_and_issues_with_progress
    rw [herr]
  · intro r hr info hok
    rw [lookup_parallel fetch completionOrder r (hperm.mem_iff.mpr hr)]
    unfold check_repo_ci_and_issues_with_progress
    rw [hok]

/-- Claim C6 witness: a three-repository batch in a completion order different from
submission order, where the check of jon-the-dev/demo raises; its entry holds the
defaults while the sibling entries hold their fetched results. -/
theorem parallel_batch_failure_isolation_witness :
    (check_repos_ci_and_issues_parallel sampleFetch
        ["jon-the-dev/site", "jon-the-dev/tools", "jon-the-dev/demo"]).lookup
        "jon-the-dev/demo" = some (errorCIInfo, emptyIssuesInfo)
      ∧ (check_repos_ci_and_issues_parallel sampleFetch
          ["jon-the-dev/site", "jon-the-dev/tools", "jon-the-dev/demo"]).lookup
          "jon-the-dev/site" = some (sampleCIInfo, sampleIssuesInfo) := by
  have h := parallel_batch_failure_isolation sampleFetch
    ["jon-the-dev/demo", "jon-the-dev/site", "jon-the-dev/tools"]
    ["jon-the-dev/site", "jon-the-dev/tools", "jon-the-dev/demo"]
    "jon-the-dev/demo" "boom" (by decide) (by decide) rfl
  exact ⟨h.1, h.2 "jon-the-dev/site" (by decide) (sampleCIInfo, sampleIssuesInfo) rfl⟩

/-! ### Command-runner sentinels (claim C7) -/

/-- Claim C7 counterexample: `run_command` of scripts/3_fetch_all_prs.py performs no
JSON parsing: on exit status 0 it returns the captured stdout unchanged — even when
that output is not valid JSON — rather than the None failure sentinel the claim
requires on malformed JSON output.  (JSON decoding of run_command's output, and the
catching of json.JSONDecodeError, happens in its callers.) -/
theorem run_command_no_json_counterexample :
    run_command { timedOut := false, exitCode := 0,
                  stdout := "this is not valid json", stderr := "" }
        = some "this is not valid json"
      ∧ run_command { timedOut := false, exitCode := 0,
                      stdout := "this is not valid json", stderr := "" } ≠ none :=
  ⟨rfl, by decide⟩

/-- Claim C7 (amended): each command runner is total at its boundary — modelled by
these functions being total — and returns the None sentinel exactly on the failures
it can observe: run_command (fetch script) returns None exactly on timeout or
non-zero exit and otherwise returns the raw stdout unchanged, leaving JSON parsing
and JSON-error handling to its callers; run_gh_command (merge script) passes no
timeout (so a timeout cannot occur), and returns None on non-zero exit, on
whitespace-only stdout, and on malformed JSON output (a parse failure), otherwise
returning the parsed JSON. -/
theorem command_runner_sentinels {J : Type} (parse : String → Option J)
    (o : CommandOutcome) (g : GhCommandOutcome) :
    (run_command o = none ↔ (o.timedOut = true ∨ o.exitCode ≠ 0))
      ∧ (o.timedOut = false → o.exitCode = 0 → run_command o = some o.stdout)
      ∧ (g.exitCode ≠ 0 → run_gh_command parse g = none)
      ∧ (pyStrip g.stdout = "" → run_gh_command parse g = none)
      ∧ (g.exitCode = 0 → pyStrip g.stdout ≠ "" → parse g.stdout = none →
          run_gh_command parse g = none)
      ∧ (g.exitCode = 0 → pyStrip g.stdout ≠ "" →
          run_gh_command parse g = parse g.stdout) := by
  refine ⟨?_, ?_, ?_, ?_, ?_, ?_⟩
  · unfold run_command
    rcases ht : o.timedOut with h | h
    · by_cases he : o.exitCode = 0 <;> simp [he]
    · simp
  · intro ht he
    unfold run_command
    rw [ht, he]
    simp
  · intro he
    unfold run_gh_command
    rw [if_pos he]
  · intro hs
    unfold run_gh_command
    by_cases he : g.exitCode ≠ 0
    · rw [if_pos he]
    · rw [if_neg he, if_pos hs]
  · intro he hs hp
    unfold run_gh_command
    rw [if_neg (by simp [he]), if_neg hs]
    exact hp
  · intro he hs
    unfold run_gh_command
    rw [if_neg (by simp [he]), if_neg hs]

/-- Claim C7 witness: the amended sentinel behaviour applied at concrete outcomes —
a clean run returns its stdout; a gh run whose output fails JSON parsing returns
None. -/
theorem command_runner_sentinels_witness :
    run_command { timedOut := false, exitCode := 0, stdout := "ok", stderr := "" }
        = some "ok"
      ∧ run_gh_command toyJsonParse { exitCode := 0, stdout := "x", stderr := "" }
        = none := by
  constructor
  · exact (command_runner_sentinels toyJsonParse
      { timedOut := false, exitCode := 0, stdout := "ok", stderr := "" }
      { exitCode := 0, stdout := "x", stderr := "" }).2.1 rfl rfl
  · exact (command_runner_sentinels toyJsonParse
      { timedOut := false, exitCode := 0, stdout := "ok", stderr := "" }
      { exitCode := 0, stdout := "x", stderr := "" }).2.2.2.2.1 rfl (by decide) (by decide)

/-! ### Issue remediation (claim C8) -/

/-- Claim C8: create_or_update_issue never duplicates a compliance issue: an issue is
created only when no issue with an exactly matching title exists; when the exact
match found by search_issues is open, no new issue is created; when it is closed,
that same issue (same number) is reopened in place.  The match found by
search_issues is an element of the search results with exactly the requested
title. -/
theorem create_or_update_issue_no_duplicates (title : String) (items : List GhIssue) :
    (create_or_update_issue title items = .createNew ↔ ∀ i ∈ items, i.title ≠ title)
      ∧ (∀ i, search_issues title items = some i → i.state = .isOpen →
          create_or_update_issue title items = .alreadyOpen i.number)
      ∧ (∀ i, search_issues title items = some i → i.state = .isClosed →
          create_or_update_issue title items = .reopen i.number)
      ∧ (∀ i, search_issues title items = some i → i.title = title ∧ i ∈ items) := by
  refine ⟨⟨?_, ?_⟩, ?_, ?_, ?_⟩
  · intro h i hi hti
    unfold create_or_update_issue at h
    cases hs : search_issues title items with
    | none =>
      have hnone := List.find?_eq_none.mp hs i hi
      simp [hti] at hnone
    | some j =>
      rw [hs] at h
      cases hj : j.state <;> simp [hj] at h
  · intro h
    have hs : search_issues title items = none := by
      unfold search_issues
      rw [List.find?_eq_none]
      intro i hi
      simp [h i hi]
    unfold create_or_update_issue
    rw [hs]
  · intro i hs hst
    unfold create_or_update_issue
    rw [hs]
    simp [hst]
  · intro i hs hst
    unfold create_or_update_issue
    rw [hs]
    simp [hst]
  · intro i hs
    unfold search_issues at hs
    have ht := List.find?_some hs
    have hm := List.mem_of_find?_eq_some hs
    exact ⟨by simpa using ht, hm⟩

/-- Claim C8 witness: with an exact-title match that is closed among the search
results, the same issue (number 12) is reopened rather than a new one created. -/
theorem create_or_update_issue_no_duplicates_witness :
    create_or_update_issue "Repository Compliance: Missing Required Files"
        [unrelatedIssueExample, closedComplianceIssueExample] = .reopen 12
      ∧ ¬ (create_or_update_issue "Repository Compliance: Missing Required Files"
            [unrelatedIssueExample, closedComplianceIssueExample] = .createNew) := by
  have h := (create_or_update_issue_no_duplicates
    "Repository Compliance: Missing Required Files"
    [unrelatedIssueExample, closedComplianceIssueExample]).2.2.1
    closedComplianceIssueExample (by decide) rfl
  constructor
  · exact h
  · rw [h]
    decide

/-! ### Archived repositories and the --include-archived flag (claim C9) -/

/-- Claim C9: the --include-archived command-line flag has no effect on behaviour:
main never forwards it and audit_organization unconditionally skips every archived
repository, counting it only in the archived repo-type total, so archived
repositories never appear in the per-repository audit results whether or not the
flag is given. -/
theorem include_archived_flag_no_effect (repos : List RepoData) :
    (∀ flag1 flag2 : Bool, main_audited_repos flag1 repos = main_audited_repos flag2 repos)
      ∧ (∀ flag : Bool, ∀ r ∈ main_audited_repos flag repos, r.archived = false)
      ∧ (∀ flag : Bool, main_audited_repos flag repos = audit_organization_repos repos)
      ∧ archived_repo_count repos + (audit_organization_repos repos).length
          = repos.length := by
  refine ⟨fun _ _ => rfl, ?_, fun _ => rfl, ?_⟩
  · intro flag r hr
    have hmem : r ∈ repos.filter (fun x => !x.archived) := hr
    have hp := List.of_mem_filter hmem
    simpa using hp
  · induction repos with
    | nil => rfl
    | cons r rest ih =>
      unfold archived_repo_count audit_organization_repos at ih ⊢
      rcases hr : r.archived with _ | _
      · simp only [List.filter_cons, hr]
        simp
        omega
      · simp only [List.filter_cons, hr]
        simp
        omega

/-- Claim C9 witness: on a concrete repository list the audited results are
identical with the flag on and off, and the active repository that does appear is
not archived. -/
theorem include_archived_flag_no_effect_witness :
    main_audited_repos true [archivedRepoExample, activeRepoExample]
        = main_audited_repos false [archivedRepoExample, activeRepoExample]
      ∧ activeRepoExample.archived = false
      ∧ archived_repo_count [archivedRepoExample, activeRepoExample]
          + (audit_organization_repos [archivedRepoExample, activeRepoExample]).length
          = 2 :=
  ⟨(include_archived_flag_no_effect [archivedRepoExample, activeRepoExample]).1 true false,
   (include_archived_flag_no_effect [archivedRepoExample, activeRepoExample]).2.1 true
     activeRepoExample (by decide),
   (include_archived_flag_no_effect [archivedRepoExample, activeRepoExample]).2.2.2⟩

/-! ### Progress counter under concurrency (claim C10) -/

theorem counterStep_acquire {n : Nat} (s : CounterState n) (t : Fin n) (s' : CounterState n)
    (h : counterStep s (.acquireAndRead t) = some s') :
    s.holder = none ∧ s' = { counter := s.counter, holder := some t, readVal := s.counter,
                             completedIncrements := s.completedIncrements } := by
  unfold counterStep at h
  cases hh : s.holder with
  | none =>
    rw [hh] at h
    simp at h
    exact ⟨rfl, h.symm⟩
  | some t2 =>
    rw [hh] at h
    simp at h

theorem counterStep_write {n : Nat} (s : CounterState n) (t : Fin n) (s' : CounterState n)
    (h : counterStep s (.writeAndRelease t) = some s') :
    s.holder = some t ∧ s' = { counter := s.readVal + 1, holder := none, readVal := 0,
                               completedIncrements := s.completedIncrements + 1 } := by
  unfold counterStep at h
  cases hh : s.holder with
  | none =>
    rw [hh] at h
    simp at h
  | some t2 =>
    rw [hh] at h
    simp at h
    rcases h with ⟨ht, hs⟩
    subst ht
    exact ⟨rfl, hs.symm⟩

theorem runCounterEvents_cons {n : Nat} (s : CounterState n) (e : LockEvent n)
    (rest : List (LockEvent n)) :
    runCounterEvents s (e :: rest)
      = match counterStep s e with
        | some s1 => runCounterEvents s1 rest
        | none => none := rfl

theorem runCounterEvents_invariant {n : Nat} :
    ∀ (es : List (LockEvent n)) (s s2 : CounterState n),
      s.counter = s.completedIncrements →
      (∀ t, s.holder = some t → s.readVal = s.counter) →
      runCounterEvents s es = some s2 →
      s2.counter = s2.completedIncrements
        ∧ s2.completedIncrements = s.completedIncrements + incrementCount es
  | [], s, s2, hc, _, hrun => by
    unfold runCounterEvents at hrun
    cases hrun
    exact ⟨hc, by simp [incrementCount]⟩
  | e :: rest, s, s2, hc, hr, hrun => by
    rw [runCounterEvents_cons] at hrun
    cases hstep : counterStep s e with
    | none =>
      rw [hstep] at hrun
      simp at hrun
    | some s1 =>
      rw [hstep] at hrun
      cases e with
      | acquireAndRead t =>
        obtain ⟨hh, hs1⟩ := counterStep_acquire s t s1 hstep
        subst hs1
        have ih := runCounterEvents_invariant rest
          { counter := s.counter, holder := some t, readVal := s.counter,
            completedIncrements := s.completedIncrements } s2 hc (fun t2 _ => rfl) hrun
        exact ⟨ih.1, by rw [ih.2]; simp [incrementCount]⟩
      | writeAndRelease t =>
        obtain ⟨hh, hs1⟩ := counterStep_write s t s1 hstep
        subst hs1
        have hrv : s.readVal = s.counter := hr t hh
        have ih := runCounterEvents_invariant rest
          { counter := s.readVal + 1, holder := none, readVal := 0,
            completedIncrements := s.completedIncrements + 1 } s2 (by simp [hrv, hc])
          (fun t3 h3 => by simp at h3) hrun
        refine ⟨ih.1, ?_⟩
        rw [ih.2]
        simp [incrementCount, List.filter_cons]
        omega

/-- Claim C10: under any number of concurrent worker threads and any scheduling
order that respects the counter's mutex, a legal execution performing T completed
increments of the shared ProgressCounter ends with the counter equal to T exactly —
no lost updates — regardless of the interleaving, because each increment's
read-modify-write happens while holding the lock: a second thread can neither
acquire while the lock is held nor write without holding it. -/
theorem progress_counter_no_lost_updates {n : Nat} (es : List (LockEvent n))
    (s2 : CounterState n) (hrun : runCounterEvents (counterInit n) es = some s2) :
    s2.counter = incrementCount es := by
  have h := runCounterEvents_invariant es (counterInit n) s2 rfl
    (fun t ht => by simp [counterInit] at ht) hrun
  rw [h.1, h.2]
  simp [counterInit]

/-- Claim C10 witness: two threads interleave three increments under the lock
discipline; the final counter value is 3, the number of completed increments. -/
theorem progress_counter_no_lost_updates_witness :
    runCounterEvents (counterInit 2) interleavingExample = some finalStateExample
      ∧ finalStateExample.counter = incrementCount interleavingExample :=
  ⟨by decide,
   progress_counter_no_lost_updates interleavingExample finalStateExample (by decide)⟩
